import Mathlib

/-!
Verification of the two pipelines of the repository `faculdadetrab`:
`ativdade01.py` (simple linear regression via the normal equations) and
`atividade02.py` (PTAX exchange-rate lookup with forward fill of missing days).

Real numbers of the scripts (numpy floats) are embedded as exact rationals
`ℚ`; a floating computation that yields a non-finite value (`nan`/`inf`,
e.g. division by a zero denominator) is embedded as `Option.none`.
Fallible operations (a raised, uncaught Python exception) are embedded as
`Option.none` of the function's result type.
-/

namespace Atividade01

/-- A list of rationals is constant: any two of its members are equal.
(The degenerate-design-matrix condition for the regression.) -/
def constL (xs : List ℚ) : Prop := ∀ a ∈ xs, ∀ b ∈ xs, a = b

instance (xs : List ℚ) : Decidable (constL xs) := by
  unfold constL; infer_instance

/-- Embedding of `ModeloRegressaoLinear.treinar_modelo` (ativdade01.py,
lines 47-59), for loaded data `xs`, `ys`.  The design matrix is
`X = [1, x]`, so `X'X = [[n, Σx], [Σx, Σx²]]` and `X'y = [Σy, Σxy]`.
`np.linalg.solve(xtx, xty)` returns the unique solution of the 2×2 system
when `det(X'X) = n·Σx² − (Σx)² ≠ 0` and raises `LinAlgError` on a singular
matrix, embedded as `none`. -/
def treinar_modelo (xs ys : List ℚ) : Option (ℚ × ℚ) :=
  let n : ℚ := xs.length
  let sx : ℚ := xs.sum
  let sxx : ℚ := (xs.map (fun v => v * v)).sum
  let sy : ℚ := ys.sum
  let sxy : ℚ := (List.zipWith (fun u v => u * v) xs ys).sum
  let det : ℚ := n * sxx - sx * sx
  if det = 0 then none
  else some ((sxx * sy - sx * sxy) / det, (n * sxy - sx * sy) / det)

/-- Embedding of the prediction line `self.predicoes = self.intercepto +
self.coef_angular * self.dados_x` (ativdade01.py, line 59). -/
def predicoes (b0 b1 : ℚ) (xs : List ℚ) : List ℚ := xs.map (fun x => b0 + b1 * x)

/-- Embedding of `residuos = self.dados_y - self.predicoes`
(ativdade01.py, line 72). -/
def residuos (ys yhat : List ℚ) : List ℚ := List.zipWith (fun a b => a - b) ys yhat

/-- Embedding of `soma_quad_residuos = np.sum(residuos ** 2)`
(ativdade01.py, line 73). -/
def soma_quad_residuos (ys yhat : List ℚ) : ℚ :=
  ((residuos ys yhat).map (fun r => r * r)).sum

/-- Embedding of `np.mean(self.dados_y)` (ativdade01.py, line 74). -/
def media (ys : List ℚ) : ℚ := ys.sum / ys.length

/-- Embedding of `soma_quad_total = np.sum((y - mean) ** 2)`
(ativdade01.py, line 74). -/
def soma_quad_total (ys : List ℚ) : ℚ :=
  (ys.map (fun y => (y - media ys) * (y - media ys))).sum

/-- Embedding of `self.r_quadrado = 1 - rss / tss` (ativdade01.py, line 75).
When `tss = 0` the float division yields a non-finite value (`nan` or
`±inf`), embedded as `none`. -/
def r_quadrado (ys yhat : List ℚ) : Option ℚ :=
  if soma_quad_total ys = 0 then none
  else some (1 - soma_quad_residuos ys yhat / soma_quad_total ys)

/-- Embedding of `mse = soma_quad_residuos / len(self.dados_y)`
(ativdade01.py, line 78); the script's RMSE is `np.sqrt` of this value,
so RMSE-level claims are stated through `mse` (`RMSE = 0 ↔ mse = 0`,
`RMSE = sqrt (RSS/n) ↔ mse = RSS/n`). -/
def mse (ys yhat : List ℚ) : ℚ := soma_quad_residuos ys yhat / ys.length

/-- Sum of squared residuals of the affine predictor `x ↦ a + b·x` on the
sample `(xs, ys)` — the objective the least-squares fit minimizes. -/
def rss (xs ys : List ℚ) (a b : ℚ) : ℚ := soma_quad_residuos ys (predicoes a b xs)

/-- Sum of the residuals of the affine predictor over the paired sample. -/
def sres (xs ys : List ℚ) (a b : ℚ) : ℚ :=
  (List.zipWith (fun x y => y - a - b * x) xs ys).sum

/-- Sum of residual·x of the affine predictor over the paired sample. -/
def sresx (xs ys : List ℚ) (a b : ℚ) : ℚ :=
  (List.zipWith (fun x y => (y - a - b * x) * x) xs ys).sum

lemma sum_sq_nonneg (l : List ℚ) : 0 ≤ (l.map (fun t => t * t)).sum := by
  apply List.sum_nonneg
  intro x hx
  obtain ⟨t, _, rfl⟩ := List.mem_map.mp hx
  exact mul_self_nonneg t

lemma sum_pos_of_mem_pos {l : List ℚ} (hall : ∀ t ∈ l, 0 ≤ t)
    {t0 : ℚ} (hmem : t0 ∈ l) (hpos : 0 < t0) : 0 < l.sum := by
  induction l with
  | nil => cases hmem
  | cons a l ih =>
    rw [List.sum_cons]
    rcases List.mem_cons.mp hmem with rfl | hmem'
    · have : 0 ≤ l.sum := List.sum_nonneg (fun x hx => hall x (List.mem_cons_of_mem _ hx))
      linarith
    · have ha : 0 ≤ a := hall a (List.mem_cons_self a l)
      have := ih (fun t ht => hall t (List.mem_cons_of_mem _ ht)) hmem'
      linarith

lemma sum_sq_eq_zero {l : List ℚ} (h : (l.map (fun t => t * t)).sum = 0) :
    ∀ t ∈ l, t = 0 := by
  intro t ht
  by_contra hne
  have hpos : 0 < t * t := mul_self_pos.mpr hne
  have hnn : ∀ x ∈ l.map (fun t => t * t), 0 ≤ x := by
    intro x hx
    obtain ⟨u, _, rfl⟩ := List.mem_map.mp hx
    exact mul_self_nonneg u
  exact absurd h (ne_of_gt (sum_pos_of_mem_pos hnn (List.mem_map_of_mem _ ht) hpos))

lemma rss_zip (xs ys : List ℚ) (a b : ℚ) :
    rss xs ys a b =
      (List.zipWith (fun x y => (y - a - b * x) * (y - a - b * x)) xs ys).sum := by
  induction xs generalizing ys with
  | nil => cases ys <;> simp [rss, soma_quad_residuos, residuos, predicoes]
  | cons x xs ih =>
    cases ys with
    | nil => simp [rss, soma_quad_residuos, residuos, predicoes]
    | cons y ys =>
      have := ih ys
      simp only [rss, soma_quad_residuos, residuos, predicoes, List.map_cons,
        List.zipWith_cons_cons, List.sum_cons] at this ⊢
      rw [this]
      ring_nf

/-- Decomposition of the objective around a base point `(a, b)`. -/
lemma rss_decomp (xs ys : List ℚ) (a b u v : ℚ) :
    rss xs ys (a + u) (b + v) =
      rss xs ys a b - 2 * u * sres xs ys a b - 2 * v * sresx xs ys a b
        + (List.zipWith (fun x _ => (u + v * x) * (u + v * x)) xs ys).sum := by
  induction xs generalizing ys with
  | nil => cases ys <;> simp [rss_zip, sres, sresx]
  | cons x xs ih =>
    cases ys with
    | nil => simp [rss_zip, sres, sresx]
    | cons y ys =>
      have h := ih ys
      simp only [rss_zip, sres, sresx, List.zipWith_cons_cons, List.sum_cons] at h ⊢
      linear_combination h

lemma sres_eq (xs ys : List ℚ) (hlen : ys.length = xs.length) (a b : ℚ) :
    sres xs ys a b = ys.sum - (xs.length : ℚ) * a - b * xs.sum := by
  induction xs generalizing ys with
  | nil =>
    cases ys with
    | nil => simp [sres]
    | cons y ys => simp at hlen
  | cons x xs ih =>
    cases ys with
    | nil => simp at hlen
    | cons y ys =>
      simp only [List.length_cons, Nat.succ.injEq] at hlen
      have h := ih ys hlen
      simp only [sres, List.zipWith_cons_cons, List.sum_cons, List.length_cons] at h ⊢
      push_cast
      linear_combination h

lemma sresx_eq (xs ys : List ℚ) (hlen : ys.length = xs.length) (a b : ℚ) :
    sresx xs ys a b =
      (List.zipWith (fun u v => u * v) xs ys).sum - a * xs.sum
        - b * (xs.map (fun v => v * v)).sum := by
  induction xs generalizing ys with
  | nil =>
    cases ys with
    | nil => simp [sresx]
    | cons y ys => simp at hlen
  | cons x xs ih =>
    cases ys with
    | nil => simp at hlen
    | cons y ys =>
      simp only [List.length_cons, Nat.succ.injEq] at hlen
      have h := ih ys hlen
      simp only [sresx, List.zipWith_cons_cons, List.sum_cons, List.map_cons] at h ⊢
      linear_combination h

lemma zip_sq_eq (xs ys : List ℚ) (hlen : ys.length = xs.length) (u v : ℚ) :
    (List.zipWith (fun x _ => (u + v * x) * (u + v * x)) xs ys).sum =
      ((xs.map (fun x => u + v * x)).map (fun t => t * t)).sum := by
  induction xs generalizing ys with
  | nil =>
    cases ys with
    | nil => simp
    | cons y ys => simp at hlen
  | cons x xs ih =>
    cases ys with
    | nil => simp at hlen
    | cons y ys =>
      simp only [List.length_cons, Nat.succ.injEq] at hlen
      simp only [List.zipWith_cons_cons, List.map_cons, List.sum_cons, ih ys hlen]

lemma sum_map_affine (xs : List ℚ) (a b : ℚ) :
    (xs.map (fun x => a + b * x)).sum = (xs.length : ℚ) * a + b * xs.sum := by
  induction xs with
  | nil => simp
  | cons x xs ih =>
    simp only [List.map_cons, List.sum_cons, List.length_cons, ih]
    push_cast
    ring

lemma zip_mul_affine (xs : List ℚ) (a b : ℚ) :
    (List.zipWith (fun u v => u * v) xs (xs.map (fun x => a + b * x))).sum =
      a * xs.sum + b * (xs.map (fun v => v * v)).sum := by
  induction xs with
  | nil => simp
  | cons x xs ih =>
    simp only [List.map_cons, List.zipWith_cons_cons, List.sum_cons, ih]
    ring

lemma sum_sq_dev (xs : List ℚ) (c : ℚ) :
    (xs.map (fun x => (x - c) * (x - c))).sum =
      (xs.map (fun v => v * v)).sum - 2 * c * xs.sum + (xs.length : ℚ) * (c * c) := by
  induction xs with
  | nil => simp
  | cons x xs ih =>
    simp only [List.map_cons, List.sum_cons, List.length_cons, ih]
    push_cast
    ring

lemma const_sums {xs : List ℚ} {c : ℚ} (h : ∀ x ∈ xs, x = c) :
    xs.sum = (xs.length : ℚ) * c ∧
      (xs.map (fun v => v * v)).sum = (xs.length : ℚ) * (c * c) := by
  induction xs with
  | nil => simp
  | cons x xs ih =>
    have hx : x = c := h x (List.mem_cons_self x xs)
    have hrest := ih (fun t ht => h t (List.mem_cons_of_mem _ ht))
    simp only [List.map_cons, List.sum_cons, List.length_cons, hrest.1, hrest.2, hx]
    push_cast
    constructor <;> ring

/-- For a non-constant sample of length ≥ 2 (in fact ≥ 1 suffices given two
distinct members), the determinant of `X'X` is strictly positive. -/
lemma det_pos {xs : List ℚ} (hnc : ¬ constL xs) :
    0 < (xs.length : ℚ) * (xs.map (fun v => v * v)).sum - xs.sum * xs.sum := by
  have hne : xs ≠ [] := by rintro rfl; exact hnc (by intro a ha; cases ha)
  have hn0 : 0 < (xs.length : ℚ) := by
    have : 0 < xs.length := List.length_pos.mpr hne
    exact_mod_cast this
  set n : ℚ := (xs.length : ℚ) with hn
  set c : ℚ := xs.sum / n with hc
  -- some member differs from the mean
  have hdiff : ∃ x ∈ xs, x ≠ c := by
    by_contra hall
    push_neg at hall
    exact hnc (fun a ha b hb => by rw [hall a ha, hall b hb])
  obtain ⟨x0, hx0, hx0ne⟩ := hdiff
  have hposterm : 0 < (x0 - c) * (x0 - c) := mul_self_pos.mpr (sub_ne_zero.mpr hx0ne)
  have hsumpos : 0 < (xs.map (fun x => (x - c) * (x - c))).sum := by
    apply sum_pos_of_mem_pos
    · intro t ht
      obtain ⟨u, _, rfl⟩ := List.mem_map.mp ht
      exact mul_self_nonneg _
    · exact List.mem_map_of_mem _ hx0
    · exact hposterm
  have hdev := sum_sq_dev xs c
  have key : n * (xs.map (fun x => (x - c) * (x - c))).sum =
      n * (xs.map (fun v => v * v)).sum - xs.sum * xs.sum := by
    rw [hdev, hc]
    field_simp
    ring
  have := mul_pos hn0 hsumpos
  linarith [key]

/-- A constant regressor makes `X'X` singular. -/
lemma det_zero_of_const {xs : List ℚ} (hc : constL xs) :
    (xs.length : ℚ) * (xs.map (fun v => v * v)).sum - xs.sum * xs.sum = 0 := by
  cases xs with
  | nil => simp
  | cons x xs =>
    have h : ∀ t ∈ x :: xs, t = x := fun t ht => hc t ht x (List.mem_cons_self x xs)
    obtain ⟨h1, h2⟩ := const_sums h
    rw [h1, h2]
    ring

/-- C1: for equal-length samples with `xs.length ≥ 2` and `xs` not constant,
`treinar_modelo` returns coefficients `(β₀, β₁)` satisfying the normal
equations `X'X β = X'y` of the design matrix `[1, x]` — componentwise
`n·β₀ + Σx·β₁ = Σy` and `Σx·β₀ + Σx²·β₁ = Σxy` — and these coefficients
minimize the sum of squared residuals over all affine predictors; when `xs`
is constant (`X'X` singular) the fit fails (`LinAlgError`, embedded `none`)
instead of returning coefficients. -/
theorem C1_treinar_modelo_minimos_quadrados :
    (∀ xs ys : List ℚ, 2 ≤ xs.length → ys.length = xs.length → ¬ constL xs →
      ∃ b0 b1 : ℚ, treinar_modelo xs ys = some (b0, b1) ∧
        ((xs.length : ℚ) * b0 + xs.sum * b1 = ys.sum ∧
          xs.sum * b0 + (xs.map (fun v => v * v)).sum * b1 =
            (List.zipWith (fun u v => u * v) xs ys).sum) ∧
        (∀ a b : ℚ, rss xs ys b0 b1 ≤ rss xs ys a b)) ∧
    (∀ xs ys : List ℚ, constL xs → treinar_modelo xs ys = none) := by
  constructor
  · intro xs ys _ hlen hnc
    have hdetpos := det_pos hnc
    set n : ℚ := (xs.length : ℚ) with hn
    set sx : ℚ := xs.sum with hsx
    set sxx : ℚ := (xs.map (fun v => v * v)).sum with hsxx
    set sy : ℚ := ys.sum with hsy
    set sxy : ℚ := (List.zipWith (fun u v => u * v) xs ys).sum with hsxy
    have hdet : n * sxx - sx * sx ≠ 0 := ne_of_gt hdetpos
    refine ⟨(sxx * sy - sx * sxy) / (n * sxx - sx * sx),
            (n * sxy - sx * sy) / (n * sxx - sx * sx), ?_, ⟨?_, ?_⟩, ?_⟩
    · simp only [treinar_modelo]
      rw [if_neg hdet]
    · field_simp
      ring
    · field_simp
      ring
    · set b0 : ℚ := (sxx * sy - sx * sxy) / (n * sxx - sx * sx) with hb0
      set b1 : ℚ := (n * sxy - sx * sy) / (n * sxx - sx * sx) with hb1
      have hne1 : n * b0 + sx * b1 = sy := by
        rw [hb0, hb1]; field_simp; ring
      have hne2 : sx * b0 + sxx * b1 = sxy := by
        rw [hb0, hb1]; field_simp; ring
      have hsres : sres xs ys b0 b1 = 0 := by
        rw [sres_eq xs ys hlen]
        rw [← hn, ← hsx, ← hsy]
        linarith [hne1]
      have hsresx : sresx xs ys b0 b1 = 0 := by
        rw [sresx_eq xs ys hlen]
        rw [← hsx, ← hsxx, ← hsxy]
        linarith [hne2]
      intro a b
      have hdecomp := rss_decomp xs ys b0 b1 (a - b0) (b - b1)
      rw [show b0 + (a - b0) = a from by ring, show b1 + (b - b1) = b from by ring]
        at hdecomp
      have hsq : 0 ≤ (List.zipWith
          (fun x _ => ((a - b0) + (b - b1) * x) * ((a - b0) + (b - b1) * x)) xs ys).sum := by
        rw [zip_sq_eq xs ys hlen]
        exact sum_sq_nonneg _
      rw [hdecomp, hsres, hsresx]
      linarith
  · intro xs ys hc
    have h := det_zero_of_const hc
    simp only [treinar_modelo]
    rw [if_pos h]

/-- Witness for C1 at `X = [1,2,3]`, `Y = [2,4,6]` (non-constant part) and
`X = [1,1]`, `Y = [0,0]` (constant part). -/
theorem C1_treinar_modelo_minimos_quadrados_witness :
    (∃ b0 b1 : ℚ, treinar_modelo [1, 2, 3] [2, 4, 6] = some (b0, b1) ∧
        ((([1, 2, 3] : List ℚ).length : ℚ) * b0 + ([1, 2, 3] : List ℚ).sum * b1 =
            ([2, 4, 6] : List ℚ).sum ∧
          ([1, 2, 3] : List ℚ).sum * b0 +
              (([1, 2, 3] : List ℚ).map (fun v => v * v)).sum * b1 =
            (List.zipWith (fun u v => u * v) ([1, 2, 3] : List ℚ) [2, 4, 6]).sum) ∧
        (∀ a b : ℚ, rss [1, 2, 3] [2, 4, 6] b0 b1 ≤ rss [1, 2, 3] [2, 4, 6] a b)) ∧
      treinar_modelo [1, 1] [0, 0] = none :=
  ⟨C1_treinar_modelo_minimos_quadrados.1 [1, 2, 3] [2, 4, 6]
      (by decide) (by decide) (by decide),
    C1_treinar_modelo_minimos_quadrados.2 [1, 1] [0, 0] (by decide)⟩

lemma soma_quad_residuos_self (l : List ℚ) : soma_quad_residuos l l = 0 := by
  induction l with
  | nil => simp [soma_quad_residuos, residuos]
  | cons x l ih =>
    simp only [soma_quad_residuos, residuos, List.zipWith_cons_cons, List.map_cons,
      List.sum_cons] at ih ⊢
    rw [ih]
    ring

lemma soma_quad_total_eq_zero_iff (ys : List ℚ) :
    soma_quad_total ys = 0 ↔ constL ys := by
  constructor
  · intro h
    have hform : soma_quad_total ys =
        ((ys.map (fun y => y - media ys)).map (fun t => t * t)).sum := by
      simp only [soma_quad_total, List.map_map]
      rfl
    rw [hform] at h
    have hz := sum_sq_eq_zero h
    intro p hp q hq
    have hp' : p - media ys = 0 := hz _ (List.mem_map_of_mem _ hp)
    have hq' : q - media ys = 0 := hz _ (List.mem_map_of_mem _ hq)
    linarith
  · intro hc
    cases ys with
    | nil => simp [soma_quad_total]
    | cons y ys =>
      have hall : ∀ t ∈ y :: ys, t = y := fun t ht => hc t ht y (List.mem_cons_self y ys)
      have hmedia : media (y :: ys) = y := by
        have hsum := (const_sums hall).1
        have hn : ((y :: ys).length : ℚ) ≠ 0 := by
          simp [Nat.cast_add]
          positivity
        rw [media, hsum, mul_comm, mul_div_assoc, div_self hn, mul_one]
      apply List.sum_eq_zero
      intro t ht
      obtain ⟨u, hu, rfl⟩ := List.mem_map.mp ht
      rw [hmedia, hall u hu]
      ring

/-- C5: `calcular_metricas` computes `R² = 1 − RSS/TSS` (with `RSS` the sum
of squared residuals and `TSS` the sum of squared deviations of `y` from its
mean) and `MSE = RSS/n` (so `RMSE = √(RSS/n)`); `TSS = 0` exactly when all
`y` are identical, and in that case the computed `R²` is non-finite
(embedded `none`) rather than a finite number. -/
theorem C5_calcular_metricas :
    ∀ ys yhat : List ℚ, yhat.length = ys.length → 1 ≤ ys.length →
      (soma_quad_total ys ≠ 0 →
        r_quadrado ys yhat =
          some (1 - soma_quad_residuos ys yhat / soma_quad_total ys)) ∧
      mse ys yhat = soma_quad_residuos ys yhat / (ys.length : ℚ) ∧
      (soma_quad_total ys = 0 ↔ constL ys) ∧
      (constL ys → r_quadrado ys yhat = none) := by
  intro ys yhat _ _
  refine ⟨?_, rfl, soma_quad_total_eq_zero_iff ys, ?_⟩
  · intro h
    rw [r_quadrado, if_neg h]
  · intro hc
    rw [r_quadrado, if_pos ((soma_quad_total_eq_zero_iff ys).mpr hc)]

/-- Witness for C5 at `y = [1, 2]`, `ŷ = [1, 1]`. -/
theorem C5_calcular_metricas_witness :
    (soma_quad_total [1, 2] ≠ 0 →
        r_quadrado [1, 2] [1, 1] =
          some (1 - soma_quad_residuos [1, 2] [1, 1] / soma_quad_total [1, 2])) ∧
      mse [1, 2] [1, 1] = soma_quad_residuos [1, 2] [1, 1] / (([1, 2] : List ℚ).length : ℚ) ∧
      (soma_quad_total [1, 2] = 0 ↔ constL [1, 2]) ∧
      (constL [1, 2] → r_quadrado [1, 2] [1, 1] = none) :=
  C5_calcular_metricas [1, 2] [1, 1] (by decide) (by decide)

/-- C3 counterexample: with `a = 5`, `b = 0` and the non-constant
`x = [1, 2]` of length 2, the points lie exactly on the line `y = 5 + 0·x`,
the fit recovers `(5, 0)`, but the computed `R²` is non-finite (`none`;
in floating point, a division by `TSS = 0`), not `≈ 1`. -/
theorem C3_counterexample :
    ¬ constL ([1, 2] : List ℚ) ∧ 2 ≤ ([1, 2] : List ℚ).length ∧
      treinar_modelo [1, 2] (List.map (fun x => 5 + 0 * x) [1, 2]) = some (5, 0) ∧
      r_quadrado (List.map (fun x => 5 + 0 * x) [1, 2]) (predicoes 5 0 [1, 2]) = none := by
  refine ⟨by decide, by decide, ?_, ?_⟩
  · norm_num [treinar_modelo]
  · norm_num [r_quadrado, soma_quad_total, media, predicoes]

/-- C3 (amended): fitting on points exactly on the line `y = a + b·x`, for
`xs` of length ≥ 2 and not constant, recovers intercept `a` and slope `b`
exactly, with zero sum of squared residuals and zero MSE (so RMSE 0); the
computed `R²` equals 1 provided `b ≠ 0` (for `b = 0` the `y` values are
constant, `TSS = 0`, and `R²` is non-finite, see the counterexample).  In
particular `X = [1,2,3]`, `Y = [2,4,6]` yields intercept 0, slope 2,
`R² = 1` and `MSE = 0`. -/
theorem C3_round_trip :
    (∀ (a b : ℚ) (xs : List ℚ), 2 ≤ xs.length → ¬ constL xs →
      treinar_modelo xs (xs.map (fun x => a + b * x)) = some (a, b) ∧
        soma_quad_residuos (xs.map (fun x => a + b * x)) (predicoes a b xs) = 0 ∧
        mse (xs.map (fun x => a + b * x)) (predicoes a b xs) = 0 ∧
        (b ≠ 0 →
          r_quadrado (xs.map (fun x => a + b * x)) (predicoes a b xs) = some 1)) ∧
      treinar_modelo [1, 2, 3] [2, 4, 6] = some (0, 2) ∧
      r_quadrado [2, 4, 6] (predicoes 0 2 [1, 2, 3]) = some 1 ∧
      mse [2, 4, 6] (predicoes 0 2 [1, 2, 3]) = 0 := by
  refine ⟨?_, ?_, ?_, ?_⟩
  · intro a b xs _ hnc
    have hdetpos := det_pos hnc
    set n : ℚ := (xs.length : ℚ) with hn
    set sx : ℚ := xs.sum with hsx
    set sxx : ℚ := (xs.map (fun v => v * v)).sum with hsxx
    have hdet : n * sxx - sx * sx ≠ 0 := ne_of_gt hdetpos
    have hrss0 : soma_quad_residuos (xs.map (fun x => a + b * x)) (predicoes a b xs) = 0 :=
      soma_quad_residuos_self _
    refine ⟨?_, hrss0, ?_, ?_⟩
    · simp only [treinar_modelo, sum_map_affine, zip_mul_affine, ← hn, ← hsx, ← hsxx]
      rw [if_neg hdet]
      have h1 : (sxx * (n * a + b * sx) - sx * (a * sx + b * sxx)) / (n * sxx - sx * sx)
          = a := by field_simp; ring
      have h2 : (n * (a * sx + b * sxx) - sx * (n * a + b * sx)) / (n * sxx - sx * sx)
          = b := by field_simp; ring
      rw [h1, h2]
    · rw [mse, hrss0, zero_div]
    · intro hb
      have hncy : ¬ constL (xs.map (fun x => a + b * x)) := by
        intro hcy
        apply hnc
        intro p hp q hq
        have := hcy (a + b * p) (List.mem_map_of_mem _ hp)
          (a + b * q) (List.mem_map_of_mem _ hq)
        have hbq : b * p = b * q := by linarith
        exact mul_left_cancel₀ hb hbq
      have htss : soma_quad_total (xs.map (fun x => a + b * x)) ≠ 0 := by
        rw [ne_eq, soma_quad_total_eq_zero_iff]
        exact hncy
      rw [r_quadrado, if_neg htss, hrss0, zero_div, sub_zero]
  · norm_num [treinar_modelo]
  · norm_num [r_quadrado, soma_quad_total, soma_quad_residuos, residuos, media, predicoes]
  · norm_num [mse, soma_quad_residuos, residuos, predicoes]

/-- Witness for C3 at `a = 0`, `b = 2`, `xs = [1, 2, 3]`. -/
theorem C3_round_trip_witness :
    treinar_modelo [1, 2, 3] (List.map (fun x => 0 + 2 * x) [1, 2, 3]) = some (0, 2) ∧
      soma_quad_residuos (List.map (fun x => 0 + 2 * x) [1, 2, 3])
        (predicoes 0 2 [1, 2, 3]) = 0 ∧
      mse (List.map (fun x => 0 + 2 * x) [1, 2, 3]) (predicoes 0 2 [1, 2, 3]) = 0 ∧
      ((2 : ℚ) ≠ 0 →
        r_quadrado (List.map (fun x => 0 + 2 * x) [1, 2, 3])
          (predicoes 0 2 [1, 2, 3]) = some 1) :=
  C3_round_trip.1 0 2 [1, 2, 3] (by decide) (by decide)

/-- Instance state of `ModeloRegressaoLinear` (ativdade01.py, `__init__`,
lines 10-16): every field starts as `None`. -/
structure EstadoRegressao where
  dados_x : Option (List ℚ)
  dados_y : Option (List ℚ)
  coef_angular : Option ℚ
  intercepto : Option ℚ
  r_quadrado : Option (Option ℚ)
  predicoes : Option (List ℚ)

/-- The freshly constructed model: all fields `None`. -/
def estadoInicial : EstadoRegressao := ⟨none, none, none, none, none, none⟩

/-- Embedding of the full method `treinar_modelo` (ativdade01.py, lines
38-63) acting on the instance state.  The guard (lines 40-42) returns
`False` without touching any field when either data field is `None`;
otherwise the coefficients and predictions are stored and `True` returned.
An uncaught `LinAlgError` from `np.linalg.solve` (singular `X'X`) is the
outer `none`. -/
def treinar_modelo_st (s : EstadoRegressao) : Option (EstadoRegressao × Bool) :=
  match s.dados_x, s.dados_y with
  | some xs, some ys =>
    match treinar_modelo xs ys with
    | none => none
    | some (b0, b1) =>
      some ({ s with intercepto := some b0, coef_angular := some b1,
                     predicoes := some (predicoes b0 b1 xs) }, true)
  | _, _ => some (s, false)

/-- Embedding of the method `calcular_metricas` (ativdade01.py, lines
65-89) on the instance state.  The guard (lines 67-69) returns (Python
`None`) without touching any field when `predicoes` is `None`; otherwise
`r_quadrado` is stored.  The method itself always returns Python `None`,
so only the state is produced; the outer `none` is an uncaught `TypeError`
(`dados_y` missing while `predicoes` is set — unreachable in the normal
pipeline). -/
def calcular_metricas_st (s : EstadoRegressao) : Option EstadoRegressao :=
  match s.predicoes with
  | none => some s
  | some yhat =>
    match s.dados_y with
    | some ys => some { s with r_quadrado := some (r_quadrado ys yhat) }
    | none => none

/-- Embedding of the method `plotar_resultados` (ativdade01.py, lines
91-172) on the instance state.  Result: `(state, return value, files
written)`.  The guard (lines 93-95) returns `None` and writes no file when
`predicoes` is `None`; otherwise the chart is written to `salvar_como` and
that path returned.  The outer `none` is an uncaught `TypeError` from
formatting a `None` field (unreachable in the normal pipeline). -/
def plotar_resultados_st (s : EstadoRegressao) (salvar_como : String) :
    Option (EstadoRegressao × Option String × List String) :=
  match s.predicoes with
  | none => some (s, none, [])
  | some _ =>
    match s.dados_x, s.dados_y, s.r_quadrado with
    | some _, some _, some _ => some (s, some salvar_como, [salvar_como])
    | _, _, _ => none

end Atividade01

namespace Atividade02

/-- Numeric value of an ASCII digit character. -/
def digitVal (c : Char) : ℕ := c.toNat - 48

/-- The `%Y` group of CPython `_strptime`: the regex group `(\d\d\d\d)` — exactly four
digits; returns the year value and the unconsumed suffix. -/
def match4Y : List Char → Option (ℕ × List Char)
  | a :: b :: c :: d :: rest =>
    if a.isDigit = true ∧ b.isDigit = true ∧ c.isDigit = true ∧ d.isDigit = true then
      some (1000 * digitVal a + 100 * digitVal b + 10 * digitVal c + digitVal d, rest)
    else none
  | _ => none

/-- The `%m` group of CPython `_strptime`, two-digit alternatives: the regex
alternatives `1[0-2]|0[1-9]` (tried before the one-digit `[1-9]`). -/
def matchM2 : List Char → Option (ℕ × List Char)
  | a :: b :: rest =>
    if (a = '1' ∧ (b = '0' ∨ b = '1' ∨ b = '2')) ∨
        (a = '0' ∧ b.isDigit = true ∧ ¬ b = '0') then
      some (10 * digitVal a + digitVal b, rest)
    else none
  | _ => none

/-- The `%m` group of CPython `_strptime`, one-digit alternative: the regex
alternative `[1-9]`. -/
def matchM1 : List Char → Option (ℕ × List Char)
  | a :: rest =>
    if a.isDigit = true ∧ ¬ a = '0' then some (digitVal a, rest) else none
  | _ => none

/-- The regex phase of `datetime.strptime(s, "%m%Y")`: pattern
`(1[0-2]|0[1-9]|[1-9])(\d\d\d\d)` matched at the start of the string, with
alternation order and backtracking (a failed `%Y` after a two-digit `%m`
retries the one-digit `%m`); the unconsumed suffix is returned. -/
def regex_mY (l : List Char) : Option (ℕ × ℕ × List Char) :=
  match matchM2 l with
  | some (m, r) =>
    match match4Y r with
    | some (y, rest) => some (m, y, rest)
    | none =>
      match matchM1 l with
      | some (m', r') =>
        match match4Y r' with
        | some (y, rest) => some (m', y, rest)
        | none => none
      | none => none
  | none =>
    match matchM1 l with
    | some (m', r') =>
      match match4Y r' with
      | some (y, rest) => some (m', y, rest)
      | none => none
    | none => none

/-- Embedding of `datetime.strptime(self.periodo, "%m%Y")` as called by
`_converter_periodo` (atividade02.py, lines 16-21), returning
`(month, year)`.  After the regex phase, CPython raises `ValueError` when
unconverted data remains (suffix non-empty), and `datetime(year, ...)`
raises `ValueError` when the year is below `datetime.MINYEAR = 1` — both
embedded as `none` (the script maps them to its period-format error). -/
def strptime_mY (l : List Char) : Option (ℕ × ℕ) :=
  match regex_mY l with
  | some (m, y, rest) =>
    if rest = [] then
      if y = 0 then none else some (m, y)
    else none
  | none => none

/-- Embedding of `_converter_periodo` (atividade02.py, lines 16-21):
`none` is the raised `ValueError`. -/
def converter_periodo (periodo : String) : Option (ℕ × ℕ) :=
  strptime_mY periodo.data

/-- Embedding of `calendar.isleap` as used inside
`calendar.monthrange`. -/
def bissexto (y : ℕ) : Bool :=
  (y % 4 == 0 && y % 100 != 0) || (y % 400 == 0)

/-- Embedding of `calendar.monthrange(year, month)[1]` (the number of days
in the month), as called by `_montar_url_consulta` (atividade02.py,
line 26). -/
def monthrange_ultimo (y m : ℕ) : ℕ :=
  if m = 2 then (if bissexto y then 29 else 28)
  else if m = 4 ∨ m = 6 ∨ m = 9 ∨ m = 11 then 30 else 31

/-- Embedding of `_montar_url_consulta` (atividade02.py, lines 23-37):
the pair `(primeiro_dia, ultimo_dia)` it computes for the requested
month/year (the endpoint string built from these days is rendering of the
same data and carries no further computation). -/
def montar_url_consulta (y m : ℕ) : ℕ × ℕ :=
  (1, monthrange_ultimo y m)

/-- The validation at the top of `executar_consulta` (atividade02.py,
lines 157-159): `len(mes_ano) != 6 or not mes_ano.isdigit()` rejects the
period before anything else runs (digits modelled as ASCII digits). -/
def executar_valida (mes_ano : String) : Bool :=
  mes_ano.length == 6 && mes_ano.data.all Char.isDigit

/-- The period accepted by the pipeline of `executar_consulta`: the length
/digit validation followed by `_converter_periodo` inside
`buscar_cotacoes`; `none` means the run fails with a validation/format
error before any data is processed. -/
def executar_parses (mes_ano : String) : Option (ℕ × ℕ) :=
  if executar_valida mes_ano then converter_periodo mes_ano else none

/-- Whether the run issues the HTTP request (`requests.get`,
atividade02.py, line 47).  The call site is reached exactly when the
length/digit validation passed and `_converter_periodo` returned (the
`requests.get` is the first statement after `_montar_url_consulta`, which
is total). -/
def consulta_emite_rede (mes_ano : String) : Bool :=
  (executar_parses mes_ano).isSome

/-- A record of the JSON `value` array: `dataHoraCotacao` (split as
`(date portion, time-of-day portion)`) and `cotacaoVenda`.  Days are
numbered within the requested month. -/
abbrev Registro : Type := (ℕ × ℕ) × ℚ

/-- Embedding of the dataframe processing of `buscar_cotacoes`
(atividade02.py, lines 56-59): each record is keyed by the date portion of
its timestamp (`dataframe['dia'] = dataframe['dataHoraCotacao'].dt.date`),
projected to `['dia', 'cotacaoVenda']`, and sorted ascending by `dia`
(`sort_values('dia')`).  No deduplication is performed. -/
def processar_registros (value : List Registro) : List (ℕ × ℚ) :=
  (value.map (fun r => (r.1.1, r.2))).mergeSort (fun p q => p.1 ≤ q.1)

/-- The left-merge lookup of `_preencher_dias_faltantes` (atividade02.py,
line 88): the quote of day `d` in the fetched frame, `none` when the day
has no row (`how='left'` produces `NaN`). -/
def obsAt (obs : List (ℕ × ℚ)) (d : ℕ) : Option ℚ :=
  (obs.find? (fun p => p.1 == d)).map (fun p => p.2)

/-- Embedding of `fillna(method='ffill')` (atividade02.py, line 89): each
missing value is replaced by the most recent preceding known value carried
in the accumulator; a missing value with no preceding known value stays
missing. -/
def ffill : Option ℚ → List (ℕ × Option ℚ) → List (ℕ × Option ℚ)
  | _, [] => []
  | last, (d, none) :: rest => (d, last) :: ffill last rest
  | _, (d, some v) :: rest => (d, some v) :: ffill (some v) rest

/-- Embedding of `_preencher_dias_faltantes` (atividade02.py, lines
78-96): build the full inclusive day range (`pd.date_range`), left-merge
the fetched quotes onto it, and forward-fill the missing values. -/
def preencher_dias_faltantes (obs : List (ℕ × ℚ)) (dia_inicial dia_final : ℕ) :
    List (ℕ × Option ℚ) :=
  let todos_dias := List.range' dia_inicial (dia_final + 1 - dia_inicial)
  ffill none (todos_dias.map (fun d => (d, obsAt obs d)))

/-- The value the forward fill assigns to day `d1 + k - 1`: the quote of
the latest day among `d1, …, d1 + k - 1` that has one, `none` when none of
them has one.  (Specification vocabulary for the fill.) -/
def ultimaCotacaoAte (obs : List (ℕ × ℚ)) (d1 : ℕ) : ℕ → Option ℚ
  | 0 => none
  | k + 1 =>
    match obsAt obs (d1 + k) with
    | some v => some v
    | none => ultimaCotacaoAte obs d1 k

/-- The three ways the HTTP interaction of `buscar_cotacoes` can go:
`requests.exceptions.Timeout`, any other `RequestException` (including
`raise_for_status` on a non-2xx reply), or a parsed JSON `value` array. -/
inductive Resposta : Type where
  | timeout : Resposta
  | falha : Resposta
  | sucesso : List Registro → Resposta

/-- Embedding of `buscar_cotacoes` (atividade02.py, lines 39-76) for a
request against month `m` of year `y`: the printed status line (first
component, one tag per `print` branch) and the returned value (second
component; Python `None` for the empty result and for both error
branches).  An empty (or missing) `value` array takes the
`not dados_json.get('value')` branch. -/
def buscar_cotacoes (m y : ℕ) (resp : Resposta) :
    String × Option (List (ℕ × Option ℚ)) :=
  match resp with
  | .timeout => ("Tempo esgotado ao conectar com a API", none)
  | .falha => ("Erro na requisicao", none)
  | .sucesso value =>
    if value = [] then ("Nenhuma cotacao encontrada", none)
    else
      let dataframe := processar_registros value
      let completo := preencher_dias_faltantes dataframe 1 (monthrange_ultimo y m)
      ("registros obtidos", some completo)

/-- Instance state of `ConsultadorDolarPTAX` (atividade02.py, lines
11-14). -/
structure EstadoConsultador where
  periodo : String
  dados_processados : Option (List (ℕ × Option ℚ))

/-- Embedding of `gerar_grafico` (atividade02.py, lines 98-151) on the
instance state: `(state, return value, files written)`.  The guard (lines
100-102) returns `None` and writes nothing when `dados_processados` is
`None`; otherwise the chart file named after the period is written and its
name returned.  The outer `none` is an uncaught `ValueError` from
`_converter_periodo` on an invalid stored period (unreachable when data
was fetched). -/
def gerar_grafico_st (s : EstadoConsultador) :
    Option (EstadoConsultador × Option String × List String) :=
  match s.dados_processados with
  | none => some (s, none, [])
  | some _ =>
    match converter_periodo s.periodo with
    | some _ =>
      some (s, some ("grafico_dolar_ptax_" ++ s.periodo ++ ".html"),
        ["grafico_dolar_ptax_" ++ s.periodo ++ ".html"])
    | none => none

/-- The chart files written by a full `executar_consulta` run (atividade
02.py, lines 154-183): a chart is rendered exactly when the validation
passed and `buscar_cotacoes` returned data (`if dados is not None`). -/
def executar_consulta_graficos (mes_ano : String) (resp : Resposta) : List String :=
  match executar_parses mes_ano with
  | none => []
  | some (m, y) =>
    match (buscar_cotacoes m y resp).2 with
    | none => []
    | some _ => ["grafico_dolar_ptax_" ++ mes_ano ++ ".html"]

/-- Accumulator semantics of the forward fill: the latest known value in
`l`, seeded with `last`. -/
def lastSome : Option ℚ → List (ℕ × Option ℚ) → Option ℚ
  | last, [] => last
  | last, p :: rest =>
    lastSome (match p.2 with | some v => some v | none => last) rest

lemma ffill_map_fst (last : Option ℚ) (l : List (ℕ × Option ℚ)) :
    (ffill last l).map Prod.fst = l.map Prod.fst := by
  induction l generalizing last with
  | nil => rfl
  | cons p l ih =>
    obtain ⟨d, o⟩ := p
    cases o <;> simp [ffill, ih]

lemma ffill_length (last : Option ℚ) (l : List (ℕ × Option ℚ)) :
    (ffill last l).length = l.length := by
  have h := congrArg List.length (ffill_map_fst last l)
  simpa using h

lemma lastSome_append (last : Option ℚ) (l : List (ℕ × Option ℚ)) (p : ℕ × Option ℚ) :
    lastSome last (l ++ [p]) =
      match p.2 with | some v => some v | none => lastSome last l := by
  induction l generalizing last with
  | nil =>
    obtain ⟨d, o⟩ := p
    cases o <;> rfl
  | cons q l ih =>
    simp only [List.cons_append, lastSome]
    exact ih _

lemma ffill_getElem? (l : List (ℕ × Option ℚ)) (last : Option ℚ) (i : ℕ) :
    (ffill last l)[i]? =
      (l[i]?).map (fun p => (p.1, lastSome last (l.take (i + 1)))) := by
  induction l generalizing last i with
  | nil => simp [ffill]
  | cons p l ih =>
    obtain ⟨d, o⟩ := p
    cases o with
    | none =>
      cases i with
      | zero => simp [ffill, lastSome]
      | succ i =>
        simp only [ffill, List.getElem?_cons_succ, List.take_succ_cons, lastSome]
        exact ih last i
    | some v =>
      cases i with
      | zero => simp [ffill, lastSome]
      | succ i =>
        simp only [ffill, List.getElem?_cons_succ, List.take_succ_cons, lastSome]
        exact ih (some v) i

lemma range'_take (n : ℕ) : ∀ (s m : ℕ), (List.range' s n).take m = List.range' s (min m n) := by
  induction n with
  | zero => intro s m; simp
  | succ n ih =>
    intro s m
    cases m with
    | zero => simp
    | succ m =>
      rw [List.range'_succ, List.take_succ_cons, ih (s + 1) m,
        Nat.succ_min_succ, List.range'_succ]

lemma lastSome_range' (obs : List (ℕ × ℚ)) (d1 : ℕ) :
    ∀ k, lastSome none ((List.range' d1 k).map (fun d => (d, obsAt obs d))) =
      ultimaCotacaoAte obs d1 k := by
  intro k
  induction k with
  | zero => rfl
  | succ k ih =>
    rw [List.range'_concat, List.map_append]
    simp only [List.map_cons, List.map_nil, one_mul]
    rw [lastSome_append, ih]
    cases h : obsAt obs (d1 + k) <;> simp [ultimaCotacaoAte, h]

/-- Positional description of the gap filler: row `i` is day `d1 + i`
carrying the latest quote at or before that day (within the range). -/
lemma preencher_getElem? (obs : List (ℕ × ℚ)) (d1 d2 i : ℕ)
    (h : i < d2 + 1 - d1) :
    (preencher_dias_faltantes obs d1 d2)[i]? =
      some (d1 + i, ultimaCotacaoAte obs d1 (i + 1)) := by
  set n := d2 + 1 - d1 with hn
  have hlen : i < (List.range' d1 n).length := by
    rw [List.length_range']; exact h
  unfold preencher_dias_faltantes
  rw [ffill_getElem?]
  rw [← List.map_take, range'_take, Nat.min_eq_left (by omega : i + 1 ≤ n),
    lastSome_range']
  have hget : (List.range' d1 n)[i]? = some (d1 + i) := by
    rw [List.getElem?_eq_getElem hlen, List.getElem_range']
    simp
  rw [List.getElem?_map, ← hn, hget]
  rfl

lemma obsAt_eq_some_mem {obs : List (ℕ × ℚ)} {d : ℕ} {v : ℚ}
    (h : obsAt obs d = some v) : (d, v) ∈ obs := by
  unfold obsAt at h
  obtain ⟨p, hp, hv⟩ := Option.map_eq_some'.mp h
  have hmem := List.mem_of_find?_eq_some hp
  have hpred := List.find?_some hp
  have hd : p.1 = d := by simpa using hpred
  have : p = (d, v) := by
    obtain ⟨p1, p2⟩ := p
    simp only at hd hv
    rw [hd, hv]
  rwa [this] at hmem

lemma obsAt_eq_none_keys {obs : List (ℕ × ℚ)} {d : ℕ}
    (h : obsAt obs d = none) : ∀ p ∈ obs, p.1 ≠ d := by
  unfold obsAt at h
  have hf := Option.map_eq_none'.mp h
  intro p hp
  have := List.find?_eq_none.mp hf p hp
  simpa using this

lemma obsAt_of_mem {obs : List (ℕ × ℚ)} (hnd : (obs.map Prod.fst).Nodup)
    {d : ℕ} {v : ℚ} (hm : (d, v) ∈ obs) : obsAt obs d = some v := by
  induction obs with
  | nil => cases hm
  | cons q obs ih =>
    rw [List.map_cons, List.nodup_cons] at hnd
    rcases List.mem_cons.mp hm with rfl | hm'
    · simp [obsAt, List.find?_cons]
    · have hq : q.1 ≠ d := by
        intro hqd
        exact hnd.1 (hqd ▸ (List.mem_map_of_mem Prod.fst hm' : (d, v).1 ∈ _))
      have hpred : (q.1 == d) = false := by simpa using hq
      simp only [obsAt, List.find?_cons, hpred]
      exact ih hnd.2 hm'

lemma ultima_eq_none {obs : List (ℕ × ℚ)} {d1 : ℕ} :
    ∀ k, (∀ p ∈ obs, ¬ p.1 < d1 + k) → ultimaCotacaoAte obs d1 k = none := by
  intro k
  induction k with
  | zero => intro _; rfl
  | succ k ih =>
    intro hnone
    have hob : obsAt obs (d1 + k) = none := by
      cases h : obsAt obs (d1 + k) with
      | none => rfl
      | some v =>
        have hmem := obsAt_eq_some_mem h
        exact absurd (by omega : (d1 + k, v).1 < d1 + (k + 1)) (hnone _ hmem)
    simp only [ultimaCotacaoAte, hob]
    exact ih (fun p hp hlt => hnone p hp (by omega))

lemma ultima_eq_max {obs : List (ℕ × ℚ)} {d1 m0 : ℕ} {v : ℚ}
    (hnd : (obs.map Prod.fst).Nodup) (hm : (m0, v) ∈ obs) (h1 : d1 ≤ m0) :
    ∀ k, m0 < d1 + k → (∀ p ∈ obs, p.1 < d1 + k → p.1 ≤ m0) →
      ultimaCotacaoAte obs d1 k = some v := by
  intro k
  induction k with
  | zero => intro hmk _; omega
  | succ k ih =>
    intro hmk hmax
    cases hob : obsAt obs (d1 + k) with
    | some w =>
      have hmem := obsAt_eq_some_mem hob
      have hle : d1 + k ≤ m0 := hmax _ hmem (by omega)
      have hm0 : m0 = d1 + k := by omega
      have hv := obsAt_of_mem hnd hm
      rw [hm0, hob] at hv
      simp only [ultimaCotacaoAte, hob]
      exact hv
    | none =>
      have hne : m0 ≠ d1 + k := fun he => obsAt_eq_none_keys hob (m0, v) hm he
      simp only [ultimaCotacaoAte, hob]
      exact ih (by omega) (fun p hp hlt => hmax p hp (by omega))

lemma ultima_some_exists {obs : List (ℕ × ℚ)} {d1 : ℕ} :
    ∀ k {v : ℚ}, ultimaCotacaoAte obs d1 k = some v →
      ∃ p ∈ obs, d1 ≤ p.1 ∧ p.1 < d1 + k ∧ p.2 = v := by
  intro k
  induction k with
  | zero => intro v h; cases h
  | succ k ih =>
    intro v h
    cases hob : obsAt obs (d1 + k) with
    | some w =>
      simp only [ultimaCotacaoAte, hob] at h
      refine ⟨(d1 + k, w), obsAt_eq_some_mem hob, by omega, by omega, ?_⟩
      simpa using h
    | none =>
      simp only [ultimaCotacaoAte, hob] at h
      obtain ⟨p, hp, h1, h2, h3⟩ := ih h
      exact ⟨p, hp, h1, by omega, h3⟩

/-- C2: over a full inclusive day range, the gap filler outputs one
`(day, rate)` row per calendar day, in which a day with a direct quote
keeps its quoted rate, a day without one receives the rate of the nearest
preceding observed day, and a day with no preceding observed day stays
missing; in particular `{1 ↦ 10, 3 ↦ 12}` over `[1,5]` yields
`[10, 10, 12, 12, 12]` and `{3 ↦ 12}` over `[1,5]` leaves days 1-2
missing. -/
theorem C2_preencher_dias_faltantes :
    (∀ (obs : List (ℕ × ℚ)) (d1 d2 : ℕ),
      (obs.map Prod.fst).Nodup →
      (∀ p ∈ obs, d1 ≤ p.1 ∧ p.1 ≤ d2) →
      ((preencher_dias_faltantes obs d1 d2).map Prod.fst =
          List.range' d1 (d2 + 1 - d1) ∧
        ∀ i, i < d2 + 1 - d1 →
          ((∀ v, obsAt obs (d1 + i) = some v →
              (preencher_dias_faltantes obs d1 d2)[i]? = some (d1 + i, some v)) ∧
            (obsAt obs (d1 + i) = none →
              ∀ m0 v, (m0, v) ∈ obs → m0 < d1 + i →
                (∀ p ∈ obs, p.1 ≤ d1 + i → p.1 ≤ m0) →
                (preencher_dias_faltantes obs d1 d2)[i]? = some (d1 + i, some v)) ∧
            ((∀ p ∈ obs, ¬ p.1 ≤ d1 + i) →
              (preencher_dias_faltantes obs d1 d2)[i]? = some (d1 + i, none))))) ∧
      preencher_dias_faltantes [(1, 10), (3, 12)] 1 5 =
        [(1, some 10), (2, some 10), (3, some 12), (4, some 12), (5, some 12)] ∧
      preencher_dias_faltantes [(3, 12)] 1 5 =
        [(1, none), (2, none), (3, some 12), (4, some 12), (5, some 12)] := by
  refine ⟨?_, by decide, by decide⟩
  intro obs d1 d2 hnd hrange
  constructor
  · unfold preencher_dias_faltantes
    rw [ffill_map_fst, List.map_map]
    exact List.map_id _
  · intro i hi
    refine ⟨?_, ?_, ?_⟩
    · intro v hv
      rw [preencher_getElem? obs d1 d2 i hi]
      simp [ultimaCotacaoAte, hv]
    · intro _ m0 v hm hm0 hmax
      rw [preencher_getElem? obs d1 d2 i hi]
      have harg : ∀ p ∈ obs, p.1 < d1 + (i + 1) → p.1 ≤ m0 := by
        intro p hp hlt
        exact hmax p hp (by omega)
      have := ultima_eq_max hnd hm (hrange _ hm).1 (i + 1) (by omega) harg
      rw [this]
    · intro hnone
      rw [preencher_getElem? obs d1 d2 i hi]
      have harg : ∀ p ∈ obs, ¬ p.1 < d1 + (i + 1) := by
        intro p hp hlt
        exact hnone p hp (by omega)
      have := ultima_eq_none (i + 1) harg
      rw [this]

/-- Witness for C2 at the observed days `{1 ↦ 10, 3 ↦ 12}` over the range
`[1, 5]`. -/
theorem C2_preencher_dias_faltantes_witness :
    (preencher_dias_faltantes [(1, 10), (3, 12)] 1 5).map Prod.fst =
        List.range' 1 (5 + 1 - 1) ∧
      ∀ i, i < 5 + 1 - 1 →
        ((∀ v, obsAt [(1, 10), (3, 12)] (1 + i) = some v →
            (preencher_dias_faltantes [(1, 10), (3, 12)] 1 5)[i]? =
              some (1 + i, some v)) ∧
          (obsAt [(1, 10), (3, 12)] (1 + i) = none →
            ∀ m0 v, (m0, v) ∈ [((1 : ℕ), (10 : ℚ)), (3, 12)] → m0 < 1 + i →
              (∀ p ∈ [((1 : ℕ), (10 : ℚ)), (3, 12)], p.1 ≤ 1 + i → p.1 ≤ m0) →
              (preencher_dias_faltantes [(1, 10), (3, 12)] 1 5)[i]? =
                some (1 + i, some v)) ∧
          ((∀ p ∈ [((1 : ℕ), (10 : ℚ)), (3, 12)], ¬ p.1 ≤ 1 + i) →
            (preencher_dias_faltantes [(1, 10), (3, 12)] 1 5)[i]? =
              some (1 + i, none))) :=
  C2_preencher_dias_faltantes.1 [(1, 10), (3, 12)] 1 5 (by decide) (by decide)

/-- C9 (implicit invariant): for an input mapping with at most one quote
per day, the gap filler's output over the requested month has exactly one
row per calendar day from the first to the last day of the month (its
length is the number of days in the month), in strictly ascending date
order, and every non-missing rate equals the rate of some observed day at
or before that row's day. -/
theorem C9_invariante_saida (obs : List (ℕ × ℚ)) (y m : ℕ)
    (_hnd : (obs.map Prod.fst).Nodup) :
    (preencher_dias_faltantes obs 1 (monthrange_ultimo y m)).map Prod.fst =
        List.range' 1 (monthrange_ultimo y m) ∧
      (preencher_dias_faltantes obs 1 (monthrange_ultimo y m)).length =
        monthrange_ultimo y m ∧
      ((preencher_dias_faltantes obs 1 (monthrange_ultimo y m)).map Prod.fst).Pairwise
        (fun a b => a < b) ∧
      ∀ (i d : ℕ) (r : ℚ),
        (preencher_dias_faltantes obs 1 (monthrange_ultimo y m))[i]? =
          some (d, some r) →
        ∃ p ∈ obs, p.1 ≤ d ∧ p.2 = r := by
  have hn : monthrange_ultimo y m + 1 - 1 = monthrange_ultimo y m := by omega
  have hfst : (preencher_dias_faltantes obs 1 (monthrange_ultimo y m)).map Prod.fst =
      List.range' 1 (monthrange_ultimo y m) := by
    unfold preencher_dias_faltantes
    rw [ffill_map_fst, List.map_map, hn]
    exact List.map_id _
  refine ⟨hfst, ?_, ?_, ?_⟩
  · have := congrArg List.length hfst
    simpa using this
  · rw [hfst]
    exact List.pairwise_lt_range' 1 (monthrange_ultimo y m)
  · intro i d r hir
    have hlen : (preencher_dias_faltantes obs 1 (monthrange_ultimo y m)).length =
        monthrange_ultimo y m := by
      have := congrArg List.length hfst
      simpa using this
    have hi : i < monthrange_ultimo y m := by
      by_contra hge
      have hnone : (preencher_dias_faltantes obs 1 (monthrange_ultimo y m))[i]? = none :=
        List.getElem?_eq_none (by rw [hlen]; omega)
      rw [hnone] at hir
      cases hir
    have hpos := preencher_getElem? obs 1 (monthrange_ultimo y m) i (by omega)
    rw [hpos] at hir
    rw [Option.some_inj, Prod.mk.injEq] at hir
    obtain ⟨hd, hu⟩ := hir
    obtain ⟨p, hp, h1, h2, h3⟩ := ultima_some_exists (i + 1) hu
    exact ⟨p, hp, by omega, h3⟩

/-- Witness for C9 at the observed days `{2 ↦ 4}` in February 2019. -/
theorem C9_invariante_saida_witness :
    (preencher_dias_faltantes [(2, 4)] 1 (monthrange_ultimo 2019 2)).map Prod.fst =
        List.range' 1 (monthrange_ultimo 2019 2) ∧
      (preencher_dias_faltantes [(2, 4)] 1 (monthrange_ultimo 2019 2)).length =
        monthrange_ultimo 2019 2 ∧
      ((preencher_dias_faltantes [(2, 4)] 1 (monthrange_ultimo 2019 2)).map
        Prod.fst).Pairwise (fun a b => a < b) ∧
      ∀ (i d : ℕ) (r : ℚ),
        (preencher_dias_faltantes [(2, 4)] 1 (monthrange_ultimo 2019 2))[i]? =
          some (d, some r) →
        ∃ p ∈ [((2 : ℕ), (4 : ℚ))], p.1 ≤ d ∧ p.2 = r :=
  C9_invariante_saida [(2, 4)] 2019 2 (by decide)

lemma le_dia_trans : ∀ a b c : ℕ × ℚ,
    (decide (a.1 ≤ b.1) : Bool) = true → (decide (b.1 ≤ c.1) : Bool) = true →
    (decide (a.1 ≤ c.1) : Bool) = true := by
  intro a b c hab hbc
  simp only [decide_eq_true_eq] at hab hbc ⊢
  omega

lemma le_dia_total : ∀ a b : ℕ × ℚ,
    ((decide (a.1 ≤ b.1) : Bool) || (decide (b.1 ≤ a.1) : Bool)) = true := by
  intro a b
  simp only [Bool.or_eq_true, decide_eq_true_eq]
  omega

/-- C4 counterexample: two records on the same calendar day (different
times of day) both survive `buscar_cotacoes`'s processing — the day-keyed
output has two rows for day 1, so the records are NOT reduced to at most
one value per calendar day. -/
theorem C4_counterexample :
    ¬ ((processar_registros [((1, 9), 10), ((1, 13), 11)]).map Prod.fst).Nodup ∧
      (processar_registros [((1, 9), 10), ((1, 13), 11)]).length = 2 := by
  have hperm : (processar_registros [((1, 9), 10), ((1, 13), 11)]).Perm
      [((1 : ℕ), (10 : ℚ)), (1, 11)] :=
    List.mergeSort_perm [((1 : ℕ), (10 : ℚ)), (1, 11)] _
  constructor
  · intro hnd
    have h2 : (([((1 : ℕ), (10 : ℚ)), (1, 11)]).map Prod.fst).Nodup :=
      ((hperm.map Prod.fst).nodup_iff).mp hnd
    exact absurd h2 (by decide)
  · exact hperm.length_eq.trans rfl

/-- C4 (amended): `buscar_cotacoes`'s processing keys each record by the
date portion of its timestamp and sorts ascending by day, but performs no
deduplication: the output is a permutation of the day-keyed input records
(one output row per input record), sorted by day. -/
theorem C4_processar_registros (value : List Registro) :
    (processar_registros value).Perm (value.map (fun r => (r.1.1, r.2))) ∧
      List.Pairwise (fun p q : ℕ × ℚ => p.1 ≤ q.1) (processar_registros value) ∧
      (processar_registros value).length = value.length := by
  have hperm : (processar_registros value).Perm (value.map (fun r => (r.1.1, r.2))) :=
    List.mergeSort_perm _ _
  refine ⟨hperm, ?_, ?_⟩
  · have hs := List.sorted_mergeSort le_dia_trans le_dia_total
      (value.map (fun r => (r.1.1, r.2)))
    exact hs.imp (fun h => by simpa using h)
  · exact hperm.length_eq.trans (List.length_map _ _)

/-- Month value of the first two characters of a candidate period string
(specification vocabulary). -/
def mmOf : List Char → ℕ
  | a :: b :: _ => 10 * digitVal a + digitVal b
  | _ => 0

/-- Year value of characters 3-6 of a candidate period string
(specification vocabulary). -/
def yyyyOf : List Char → ℕ
  | _ :: _ :: c :: d :: e :: f :: _ =>
    1000 * digitVal c + 100 * digitVal d + 10 * digitVal e + digitVal f
  | _ => 0

lemma char_eq_iff {a b : Char} : a = b ↔ a.toNat = b.toNat :=
  ⟨fun h => h ▸ rfl, fun h => Char.ext (UInt32.toNat.inj h)⟩

lemma isDigit_toNat {c : Char} (h : c.isDigit = true) :
    48 ≤ c.toNat ∧ c.toNat ≤ 57 := by
  unfold Char.isDigit at h
  simp at h
  exact h

/-- Behaviour of `strptime` with format `"%m%Y"` on a six-digit string: it succeeds exactly when the
first two digits form a month in 1-12 and the year digits are not `0000`,
and then returns that month and year. -/
lemma strptime_six {a b c d e f : Char}
    (ha : a.isDigit = true) (hb : b.isDigit = true) (hc : c.isDigit = true)
    (hd : d.isDigit = true) (he : e.isDigit = true) (hf : f.isDigit = true) :
    strptime_mY [a, b, c, d, e, f] =
      if 1 ≤ 10 * digitVal a + digitVal b ∧ 10 * digitVal a + digitVal b ≤ 12 ∧
          ¬ (1000 * digitVal c + 100 * digitVal d + 10 * digitVal e + digitVal f = 0)
      then
        some (10 * digitVal a + digitVal b,
          1000 * digitVal c + 100 * digitVal d + 10 * digitVal e + digitVal f)
      else none := by
  have hA := isDigit_toNat ha
  have hB := isDigit_toNat hb
  have h0 : ('0' : Char).toNat = 48 := by decide
  have h1 : ('1' : Char).toNat = 49 := by decide
  have h2 : ('2' : Char).toNat = 50 := by decide
  by_cases hP : (a = '1' ∧ (b = '0' ∨ b = '1' ∨ b = '2')) ∨
      (a = '0' ∧ b.isDigit = true ∧ ¬ b = '0')
  · have hm2 : matchM2 [a, b, c, d, e, f] =
        some (10 * digitVal a + digitVal b, [c, d, e, f]) := by
      show (if (a = '1' ∧ (b = '0' ∨ b = '1' ∨ b = '2')) ∨
          (a = '0' ∧ b.isDigit = true ∧ ¬ b = '0') then
          some (10 * digitVal a + digitVal b, [c, d, e, f]) else none) = _
      rw [if_pos hP]
    have h4 : match4Y [c, d, e, f] =
        some (1000 * digitVal c + 100 * digitVal d + 10 * digitVal e + digitVal f,
          []) := by
      show (if c.isDigit = true ∧ d.isDigit = true ∧ e.isDigit = true ∧
          f.isDigit = true then
          some (1000 * digitVal c + 100 * digitVal d + 10 * digitVal e + digitVal f,
            ([] : List Char)) else none) = _
      rw [if_pos ⟨hc, hd, he, hf⟩]
    have hmm : 1 ≤ 10 * digitVal a + digitVal b ∧
        10 * digitVal a + digitVal b ≤ 12 := by
      rcases hP with ⟨rfl, rfl | rfl | rfl⟩ | ⟨rfl, _, hbne0⟩
      · decide
      · decide
      · decide
      · have hbne : b.toNat ≠ 48 := by
          intro hbeq
          exact hbne0 (char_eq_iff.mpr (by rw [hbeq, h0]))
        unfold digitVal
        rw [h0]
        omega
    simp only [strptime_mY, regex_mY, hm2, h4]
    by_cases hY : 1000 * digitVal c + 100 * digitVal d + 10 * digitVal e + digitVal f = 0
    · rw [if_pos trivial, if_pos hY, if_neg (fun h => h.2.2 hY)]
    · rw [if_pos trivial, if_neg hY, if_pos ⟨hmm.1, hmm.2, hY⟩]
  · have hm2 : matchM2 [a, b, c, d, e, f] = none := by
      show (if (a = '1' ∧ (b = '0' ∨ b = '1' ∨ b = '2')) ∨
          (a = '0' ∧ b.isDigit = true ∧ ¬ b = '0') then
          some (10 * digitVal a + digitVal b, [c, d, e, f]) else none) = none
      rw [if_neg hP]
    have hcond : ¬ (1 ≤ 10 * digitVal a + digitVal b ∧
        10 * digitVal a + digitVal b ≤ 12 ∧
        ¬ (1000 * digitVal c + 100 * digitVal d + 10 * digitVal e + digitVal f = 0)) := by
      rintro ⟨hge, hle, -⟩
      apply hP
      unfold digitVal at hge hle
      by_cases haeq1 : a.toNat = 49
      · left
        refine ⟨char_eq_iff.mpr (by rw [haeq1, h1]), ?_⟩
        have hbv : b.toNat = 48 ∨ b.toNat = 49 ∨ b.toNat = 50 := by omega
        rcases hbv with hbv | hbv | hbv
        · exact Or.inl (char_eq_iff.mpr (by rw [hbv, h0]))
        · exact Or.inr (Or.inl (char_eq_iff.mpr (by rw [hbv, h1])))
        · exact Or.inr (Or.inr (char_eq_iff.mpr (by rw [hbv, h2])))
      · by_cases haeq0 : a.toNat = 48
        · right
          refine ⟨char_eq_iff.mpr (by rw [haeq0, h0]), hb, ?_⟩
          intro hb0
          have : b.toNat = 48 := by rw [char_eq_iff.mp hb0, h0]
          omega
        · exfalso
          omega
    rw [if_neg hcond]
    by_cases ha0 : a = '0'
    · have hm1 : matchM1 [a, b, c, d, e, f] = none := by
        show (if a.isDigit = true ∧ ¬ a = '0' then
            some (digitVal a, [b, c, d, e, f]) else none) = none
        rw [if_neg (fun h => h.2 ha0)]
      simp only [strptime_mY, regex_mY, hm2, hm1]
    · have hm1 : matchM1 [a, b, c, d, e, f] = some (digitVal a, [b, c, d, e, f]) := by
        show (if a.isDigit = true ∧ ¬ a = '0' then
            some (digitVal a, [b, c, d, e, f]) else none) = _
        rw [if_pos ⟨ha, ha0⟩]
      have h4' : match4Y [b, c, d, e, f] =
          some (1000 * digitVal b + 100 * digitVal c + 10 * digitVal d + digitVal e,
            [f]) := by
        show (if b.isDigit = true ∧ c.isDigit = true ∧ d.isDigit = true ∧
            e.isDigit = true then
            some (1000 * digitVal b + 100 * digitVal c + 10 * digitVal d + digitVal e,
              [f]) else none) = _
        rw [if_pos ⟨hb, hc, hd, he⟩]
      simp only [strptime_mY, regex_mY, hm2, hm1, h4']
      rw [if_neg (by simp)]

lemma list_six {α : Type} (l : List α) (h : l.length = 6) :
    ∃ a b c d e f : α, l = [a, b, c, d, e, f] := by
  rcases l with _ | ⟨a, _ | ⟨b, _ | ⟨c, _ | ⟨d, _ | ⟨e, _ | ⟨f, _ | ⟨g, t⟩⟩⟩⟩⟩⟩⟩ <;>
    first
      | exact ⟨a, b, c, d, e, f, rfl⟩
      | simp at h

lemma executar_valida_iff (s : String) :
    executar_valida s = true ↔
      (s.data.length = 6 ∧ ∀ c ∈ s.data, c.isDigit = true) := by
  have hlen : s.length = s.data.length := rfl
  simp only [executar_valida, Bool.and_eq_true, beq_iff_eq, List.all_eq_true, hlen]

/-- Closed form of the accepted periods: the validation plus
`strptime("%m%Y")` succeed exactly on six-digit strings whose first two
digits form a month in 1-12 and whose year digits are not `0000`, and then
produce that month and year. -/
lemma executar_parses_eq (s : String) :
    executar_parses s =
      if s.data.length = 6 ∧ (∀ c ∈ s.data, c.isDigit = true) ∧
          1 ≤ mmOf s.data ∧ mmOf s.data ≤ 12 ∧ ¬ yyyyOf s.data = 0 then
        some (mmOf s.data, yyyyOf s.data)
      else none := by
  by_cases hv : executar_valida s = true
  · obtain ⟨hlen, hdig⟩ := (executar_valida_iff s).mp hv
    have hps : executar_parses s = strptime_mY s.data := by
      unfold executar_parses converter_periodo
      rw [if_pos hv]
    obtain ⟨a, b, c, d, e, f, hl⟩ := list_six s.data hlen
    rw [hl] at hdig
    have ha := hdig a (by simp)
    have hb := hdig b (by simp)
    have hc := hdig c (by simp)
    have hd := hdig d (by simp)
    have he := hdig e (by simp)
    have hf := hdig f (by simp)
    rw [hps, hl, strptime_six ha hb hc hd he hf]
    by_cases hcnd : 1 ≤ 10 * digitVal a + digitVal b ∧
        10 * digitVal a + digitVal b ≤ 12 ∧
        ¬ (1000 * digitVal c + 100 * digitVal d + 10 * digitVal e + digitVal f = 0)
    · rw [if_pos hcnd, if_pos ⟨rfl, hdig, hcnd⟩]
      rfl
    · rw [if_neg hcnd, if_neg (fun h => hcnd ⟨h.2.2.1, h.2.2.2.1, h.2.2.2.2⟩)]
  · have hps : executar_parses s = none := by
      unfold executar_parses
      rw [if_neg hv]
    rw [hps, if_neg (fun h => hv ((executar_valida_iff s).mpr ⟨h.1, h.2.1⟩))]

/-- C6 (amended): the run fails with a validation/format error — before
any network request — if and only if the period string is not exactly 6
digits, or its first two digits do not form a month in 1-12, or its year
digits are `0000` (the one case the original sentence misses:
`datetime` rejects year 0); accepted periods proceed, and rejected ones
never reach the HTTP call. -/
theorem C6_validacao_periodo :
    (∀ s : String,
      (executar_parses s).isSome = true ↔
        (s.data.length = 6 ∧ (∀ c ∈ s.data, c.isDigit = true) ∧
          1 ≤ mmOf s.data ∧ mmOf s.data ≤ 12 ∧ ¬ yyyyOf s.data = 0)) ∧
    (∀ s : String, executar_parses s = none → consulta_emite_rede s = false) ∧
    (∀ (s : String) (p : ℕ × ℕ), executar_parses s = some p →
      consulta_emite_rede s = true ∧ p = (mmOf s.data, yyyyOf s.data)) := by
  refine ⟨?_, ?_, ?_⟩
  · intro s
    rw [executar_parses_eq]
    by_cases hcnd : s.data.length = 6 ∧ (∀ c ∈ s.data, c.isDigit = true) ∧
        1 ≤ mmOf s.data ∧ mmOf s.data ≤ 12 ∧ ¬ yyyyOf s.data = 0
    · rw [if_pos hcnd]
      simpa using hcnd
    · rw [if_neg hcnd]
      simpa using hcnd
  · intro s h
    unfold consulta_emite_rede
    rw [h]
    rfl
  · intro s p h
    have hr : consulta_emite_rede s = true := by
      unfold consulta_emite_rede
      rw [h]
      rfl
    refine ⟨hr, ?_⟩
    rw [executar_parses_eq] at h
    by_cases hcnd : s.data.length = 6 ∧ (∀ c ∈ s.data, c.isDigit = true) ∧
        1 ≤ mmOf s.data ∧ mmOf s.data ≤ 12 ∧ ¬ yyyyOf s.data = 0
    · rw [if_pos hcnd] at h
      exact (Option.some_inj.mp h).symm
    · rw [if_neg hcnd] at h
      cases h

/-- Witness for C6 at the accepted period `"072016"` and the rejected
period `"132019"`. -/
theorem C6_validacao_periodo_witness :
    ((executar_parses "072016").isSome = true ↔
      ("072016".data.length = 6 ∧ (∀ c ∈ "072016".data, c.isDigit = true) ∧
        1 ≤ mmOf "072016".data ∧ mmOf "072016".data ≤ 12 ∧
        ¬ yyyyOf "072016".data = 0)) ∧
      ((executar_parses "132019").isSome = true ↔
        ("132019".data.length = 6 ∧ (∀ c ∈ "132019".data, c.isDigit = true) ∧
          1 ≤ mmOf "132019".data ∧ mmOf "132019".data ≤ 12 ∧
          ¬ yyyyOf "132019".data = 0)) :=
  ⟨C6_validacao_periodo.1 "072016", C6_validacao_periodo.1 "132019"⟩

/-- C6 counterexample: `"010000"` is exactly six digits and its first two
digits form the month 1 ∈ 1-12, yet the code rejects it (year 0 is outside
`datetime`'s range), so "fails iff not 6 digits or month not in 1-12" is
false as stated. -/
theorem C6_counterexample :
    "010000".data.length = 6 ∧ (∀ c ∈ "010000".data, c.isDigit = true) ∧
      mmOf "010000".data = 1 ∧ executar_parses "010000" = none := by
  refine ⟨by decide, by decide, by decide, ?_⟩
  rw [executar_parses_eq]
  rw [if_neg (by decide)]

/-- C7: for every accepted period, the query builder computes first
calendar day 1 and the month's correct last calendar day — the Gregorian
month-length table with the leap-year rule (divisible by 4 and not by 100,
or divisible by 400) applied to February; in particular `"022019"` yields
last day 28 and `"022020"` yields last day 29. -/
theorem C7_primeiro_ultimo_dia :
    (∀ (s : String) (m y : ℕ), executar_parses s = some (m, y) →
      montar_url_consulta y m = (1, monthrange_ultimo y m)) ∧
    (∀ y, bissexto y = true ↔ ((4 ∣ y ∧ ¬ (100 ∣ y)) ∨ 400 ∣ y)) ∧
    (∀ y, [1, 2, 3, 4, 5, 6, 7, 8, 9, 10, 11, 12].map (monthrange_ultimo y) =
      [31, if bissexto y then 29 else 28, 31, 30, 31, 30, 31, 31, 30, 31, 30, 31]) ∧
    executar_parses "022019" = some (2, 2019) ∧
    montar_url_consulta 2019 2 = (1, 28) ∧
    executar_parses "022020" = some (2, 2020) ∧
    montar_url_consulta 2020 2 = (1, 29) := by
  refine ⟨fun s m y _ => rfl, ?_, ?_, ?_, ?_, ?_, ?_⟩
  · intro y
    simp only [bissexto, Bool.or_eq_true, Bool.and_eq_true, beq_iff_eq, bne_iff_ne,
      ne_eq]
    constructor
    · intro h
      rcases h with ⟨h4, h100⟩ | h400
      · exact Or.inl ⟨Nat.dvd_of_mod_eq_zero h4, fun hd => h100 (Nat.mod_eq_zero_of_dvd hd)⟩
      · exact Or.inr (Nat.dvd_of_mod_eq_zero h400)
    · intro h
      rcases h with ⟨h4, h100⟩ | h400
      · exact Or.inl ⟨Nat.mod_eq_zero_of_dvd h4, fun hm => h100 (Nat.dvd_of_mod_eq_zero hm)⟩
      · exact Or.inr (Nat.mod_eq_zero_of_dvd h400)
  · intro y
    simp [monthrange_ultimo]
  · decide
  · decide
  · decide
  · decide

/-- Witness for C7 at the period `"022019"`. -/
theorem C7_primeiro_ultimo_dia_witness :
    montar_url_consulta 2019 2 = (1, monthrange_ultimo 2019 2) :=
  C7_primeiro_ultimo_dia.1 "022019" 2 2019 (by decide)

/-- C8: a successful service reply whose `value` array is empty makes
`buscar_cotacoes` return `None` with its own distinct status line — not an
exception and not the timeout/request-failure outcome — and the pipeline
renders no chart for it. -/
theorem C8_resultado_vazio :
    (∀ m y : ℕ,
      buscar_cotacoes m y (Resposta.sucesso []) =
          ("Nenhuma cotacao encontrada", none) ∧
        (buscar_cotacoes m y (Resposta.sucesso [])).1 ≠
          (buscar_cotacoes m y Resposta.timeout).1 ∧
        (buscar_cotacoes m y (Resposta.sucesso [])).1 ≠
          (buscar_cotacoes m y Resposta.falha).1) ∧
    (∀ p : String, executar_consulta_graficos p (Resposta.sucesso []) = []) := by
  constructor
  · intro m y
    have h1 : (buscar_cotacoes m y (Resposta.sucesso [])).1 =
        "Nenhuma cotacao encontrada" := rfl
    have h2 : (buscar_cotacoes m y Resposta.timeout).1 =
        "Tempo esgotado ao conectar com a API" := rfl
    have h3 : (buscar_cotacoes m y Resposta.falha).1 = "Erro na requisicao" := rfl
    exact ⟨rfl, by rw [h1, h2]; decide, by rw [h1, h3]; decide⟩
  · intro p
    unfold executar_consulta_graficos
    cases hp : executar_parses p with
    | none => rfl
    | some q =>
      obtain ⟨m, y⟩ := q
      rfl

/-- C10 (implicit): calling a pipeline stage before its predecessor
succeeded hits a guard, not an error: `treinar_modelo` without loaded data
returns `False`, `calcular_metricas`/`plotar_resultados` without a trained
model return `None`, and `gerar_grafico` without fetched data returns
`None`; in every such case no file is written and the stored state is
unchanged. -/
theorem C10_guardas_estagios :
    (∀ s : Atividade01.EstadoRegressao, s.dados_x = none ∨ s.dados_y = none →
      Atividade01.treinar_modelo_st s = some (s, false)) ∧
    (∀ s : Atividade01.EstadoRegressao, s.predicoes = none →
      Atividade01.calcular_metricas_st s = some s ∧
      ∀ nome, Atividade01.plotar_resultados_st s nome = some (s, none, [])) ∧
    (∀ t : EstadoConsultador, t.dados_processados = none →
      gerar_grafico_st t = some (t, none, [])) := by
  refine ⟨?_, ?_, ?_⟩
  · intro s h
    cases hx : s.dados_x with
    | none => simp [Atividade01.treinar_modelo_st, hx]
    | some xs =>
      rcases h with h | h
      · rw [hx] at h
        cases h
      · simp [Atividade01.treinar_modelo_st, hx, h]
  · intro s h
    constructor
    · simp [Atividade01.calcular_metricas_st, h]
    · intro nome
      simp [Atividade01.plotar_resultados_st, h]
  · intro t h
    simp [gerar_grafico_st, h]

/-- Witness for C10 at the freshly constructed states. -/
theorem C10_guardas_estagios_witness :
    Atividade01.treinar_modelo_st Atividade01.estadoInicial =
        some (Atividade01.estadoInicial, false) ∧
      Atividade01.calcular_metricas_st Atividade01.estadoInicial =
        some Atividade01.estadoInicial ∧
      Atividade01.plotar_resultados_st Atividade01.estadoInicial
          "analise_regressao.html" =
        some (Atividade01.estadoInicial, none, []) ∧
      gerar_grafico_st ⟨"022019", none⟩ = some (⟨"022019", none⟩, none, []) :=
  ⟨C10_guardas_estagios.1 _ (Or.inl rfl),
    (C10_guardas_estagios.2.1 _ rfl).1,
    (C10_guardas_estagios.2.1 _ rfl).2 "analise_regressao.html",
    C10_guardas_estagios.2.2 ⟨"022019", none⟩ rfl⟩

end Atividade02
